import Mathlib

/-!
Verification development for the SyncFlix WebRTC signaling server
(src/server.js).  The server keeps two process-wide JavaScript Maps:
rooms (roomId to a record with a host slot and a viewer Map) and
userSessions (userId to session record).  We embed those Maps as
association lists with JavaScript Map semantics (set replaces in place
preserving insertion order, otherwise appends; delete removes the entry;
iteration follows insertion order), and embed each event handler of the
source as a function from server state (plus the parameters the handler
reads) to a new state and a list of observable effects (outbound sends
and socket closes).  Timestamp fields that the source attaches to every
outbound message via Date.now() are elided: no claim concerns them.
-/

namespace SyncFlix

/-- Lookup in an association list, first match wins (JavaScript Map.get). -/
def mget (k : String) : List (String × α) → Option α
  | [] => none
  | (k₁, v) :: rest => if k₁ = k then some v else mget k rest

/-- Insert or update in an association list (JavaScript Map.set): replaces
the first entry with the key in place, otherwise appends at the end. -/
def mset (k : String) (v : α) : List (String × α) → List (String × α)
  | [] => [(k, v)]
  | (k₁, v₁) :: rest => if k₁ = k then (k, v) :: rest else (k₁, v₁) :: mset k v rest

/-- Remove every entry with the key (JavaScript Map.delete; the maps built
here never hold duplicate keys, where it removes the single entry). -/
def mdel (k : String) : List (String × α) → List (String × α)
  | [] => []
  | (k₁, v₁) :: rest => if k₁ = k then mdel k rest else (k₁, v₁) :: mdel k rest

/-- Keys of an association list, in insertion order. -/
def keys (m : List (String × α)) : List String := m.map Prod.fst

/-- JavaScript truthiness of a nullable string: null and the empty string
are falsy (models url.searchParams.get results used with the bang and
or-else operators). -/
def truthy : Option String → Bool
  | some s => if s = "" then false else true
  | none => false

/-- JavaScript or-else on a nullable string (x || d). -/
def strOr (o : Option String) (d : String) : String :=
  match o with
  | some s => if s = "" then d else s
  | none => d

/-- One live transport endpoint together with the identity fields the
server attaches onto the ws object at join time (ws.userId, ws.roomId,
ws.username, ws.role, ws.isHost).  isOpen models
readyState === WebSocket.OPEN. -/
structure Conn where
  userId : String
  roomId : String
  username : String
  role : String
  isHost : Bool
  isOpen : Bool
deriving DecidableEq, Repr

/-- Room record: host slot plus viewer Map keyed by userId. -/
structure Room where
  host : Option Conn
  viewers : List (String × Conn)
deriving DecidableEq, Repr

/-- Session record stored in userSessions (the ip field is elided; no
claim concerns it). -/
structure Session where
  ws : Conn
  roomId : String
  username : String
  role : String
  isHost : Bool
  connectedAt : Nat
deriving DecidableEq, Repr

/-- The two process-wide maps. -/
structure ServerState where
  rooms : List (String × Room)
  userSessions : List (String × Session)
deriving DecidableEq, Repr

/-- Outbound message payloads, with the fields the source serializes
(Date.now() timestamps elided). -/
inductive OutMsg where
  | errorMsg (message : String) (code : Option String)
  | welcome (userId username room role : String) (isHost : Bool) (message : String)
  | hostInfo (hostId hostName : String)
  | hostJoined (hostId hostName : String)
  | viewersList (viewers : List (String × String))
  | hostLeft
  | viewerLeft (viewerId : String)
  | offer (sender senderName sdp : String)
  | answer (sender sdp : String)
  | iceCandidate (sender candidate : String)
  | screenSharingStarted (hostId hostName : String)
  | screenSharingStopped (hostId : String)
  | screenRequest (viewerId viewerName : String)
  | pong
  | roomInfo (room : String) (host : Option (String × String))
      (viewers : List (String × String)) (viewerCount : Nat)
deriving DecidableEq, Repr

/-- Recipient of a send: the ws of the event being handled, or another
member identified by its userId field. -/
inductive Recipient where
  | self
  | user (userId : String)
deriving DecidableEq, Repr

/-- Observable effects of a handler: ws.send and ws.close. -/
inductive Effect where
  | send (dest : Recipient) (msg : OutMsg)
  | closeConn (code : Nat) (reason : String)
deriving DecidableEq, Repr

/-- Query parameters of a new connection (url.searchParams.get results:
absent parameters are none). -/
structure ConnectParams where
  room : Option String
  username : Option String
  role : Option String
deriving DecidableEq, Repr

/-- True when the room exists and its host slot is occupied
(rooms.has(roomId) && rooms.get(roomId).host). -/
def hostTaken (rooms : List (String × Room)) (roomId : String) : Bool :=
  match mget roomId rooms with
  | some r => r.host.isSome
  | none => false

/-- The admitted part of the connection handler (src/server.js lines
93 to 179): generate the id, lazily create the room, install the
connection in the host slot or the viewer Map, store the session, and
emit the join notifications, in source order. -/
def joinRoom (st : ServerState) (roomId username role : String) (isHost : Bool)
    (genId : String) (now : Nat) : ServerState × List Effect :=
  let userId := genId
  let room : Room :=
    match mget roomId st.rooms with
    | some r => r
    | none => { host := none, viewers := [] }
  let conn : Conn :=
    { userId := userId, roomId := roomId, username := username,
      role := role, isHost := isHost, isOpen := true }
  let sess : Session :=
    { ws := conn, roomId := roomId, username := username,
      role := role, isHost := isHost, connectedAt := now }
  let welcomeE : Effect :=
    .send .self (.welcome userId username roomId role isHost ("Connected as " ++ role))
  if isHost then
    let room₁ := { room with host := some conn }
    let notifyE := room.viewers.filterMap (fun v =>
      if v.2.isOpen then some (Effect.send (.user v.2.userId) (.hostJoined userId username))
      else none)
    let listE :=
      if room.viewers.length > 0 then
        [Effect.send .self (.viewersList (room.viewers.map (fun v => (v.2.userId, v.2.username))))]
      else []
    ({ rooms := mset roomId room₁ st.rooms,
       userSessions := mset userId sess st.userSessions },
     notifyE ++ [welcomeE] ++ listE)
  else
    let room₁ := { room with viewers := mset userId conn room.viewers }
    let infoE :=
      match room.host with
      | some h =>
          if h.isOpen then [Effect.send .self (.hostInfo h.userId h.username)] else []
      | none => []
    ({ rooms := mset roomId room₁ st.rooms,
       userSessions := mset userId sess st.userSessions },
     infoE ++ [welcomeE])

/-- The connection handler (src/server.js lines 64 to 179): parameter
parsing with defaults, the missing-room-id rejection, the duplicate-host
rejection, then the admitted join path.  genId is the value returned by
generateUserId, which draws from Math.random with no uniqueness check,
so it is an arbitrary external input here. -/
def connectStep (st : ServerState) (p : ConnectParams) (genId : String) (now : Nat) :
    ServerState × List Effect :=
  let username := strOr p.username "Anonymous"
  let role := strOr p.role "viewer"
  let isHost : Bool := role == "host"
  if truthy p.room = false then
    (st, [.closeConn 4001 "Room ID required"])
  else
    let roomId := p.room.getD ""
    if isHost && hostTaken st.rooms roomId then
      (st, [.send .self (.errorMsg "Host already exists in this room" (some "HOST_EXISTS")),
            .closeConn 4002 "Host already exists"])
    else
      joinRoom st roomId username role isHost genId now

/-- The empty-room test of the close handler (src/server.js line 331:
!room.host && room.viewers.size === 0). -/
def roomEmpty (r : Room) : Bool := r.host.isNone && r.viewers.isEmpty

/-- Values the ws close handler reads from its closure: they were
captured when the connection joined (src/server.js lines 94, 107 to 111)
and do not change afterwards. -/
structure CloseEv where
  userId : String
  roomId : String
  username : String
  isHost : Bool
deriving DecidableEq, Repr

/-- The ws close handler (src/server.js lines 292 to 335): delete the
session, re-read the room from the Room Table, clear the host slot
unconditionally when the closure says the connection was the host or
delete it from the viewer Map otherwise, notify the remaining side, and
delete the room when it is now empty. -/
def closeStep (st : ServerState) (ev : CloseEv) : ServerState × List Effect :=
  let sessions₁ := mdel ev.userId st.userSessions
  match mget ev.roomId st.rooms with
  | none => ({ st with userSessions := sessions₁ }, [])
  | some room =>
    if ev.isHost then
      let room₁ : Room := { room with host := none }
      let eff := room.viewers.filterMap (fun v =>
        if v.2.isOpen then some (Effect.send (.user v.2.userId) .hostLeft) else none)
      let rooms₁ :=
        if roomEmpty room₁ then mdel ev.roomId st.rooms
        else mset ev.roomId room₁ st.rooms
      ({ rooms := rooms₁, userSessions := sessions₁ }, eff)
    else
      let room₁ : Room := { room with viewers := mdel ev.userId room.viewers }
      let eff :=
        match room.host with
        | some h =>
            if h.isOpen then [Effect.send (.user h.userId) (.viewerLeft ev.userId)] else []
        | none => []
      let rooms₁ :=
        if roomEmpty room₁ then mdel ev.roomId st.rooms
        else mset ev.roomId room₁ st.rooms
      ({ rooms := rooms₁, userSessions := sessions₁ }, eff)

/-- A decoded inbound message: malformed stands for a payload on which
JSON.parse throws; env carries the fields the router destructures
(absent fields are none). -/
structure Envelope where
  type : String
  target : Option String
  sdp : Option String
  candidate : Option String
deriving DecidableEq, Repr

inductive Inbound where
  | malformed
  | env (data : Envelope)
deriving DecidableEq, Repr

/-- handleOffer (src/server.js lines 344 to 376): guard on truthy target
and sdp, resolve the target (a host looks it up among the room viewers,
a viewer must name the room host), and forward to it only when it is
live.  Pure: it reads the room and sends, mutating nothing. -/
def handleOffer (data : Envelope) (sender : Conn) (room : Room) : List Effect :=
  if truthy data.target = false || truthy data.sdp = false then []
  else
    let target := data.target.getD ""
    let sdp := data.sdp.getD ""
    let targetWs : Option Conn :=
      if sender.isHost then mget target room.viewers
      else
        match room.host with
        | some h => if h.userId = target then some h else none
        | none => none
    match targetWs with
    | some w =>
        if w.isOpen then [.send (.user w.userId) (.offer sender.userId sender.username sdp)]
        else []
    | none => []

/-- handleAnswer (src/server.js lines 379 to 410), same shape as
handleOffer; the forwarded answer carries no senderName. -/
def handleAnswer (data : Envelope) (sender : Conn) (room : Room) : List Effect :=
  if truthy data.target = false || truthy data.sdp = false then []
  else
    let target := data.target.getD ""
    let sdp := data.sdp.getD ""
    let targetWs : Option Conn :=
      if sender.isHost then mget target room.viewers
      else
        match room.host with
        | some h => if h.userId = target then some h else none
        | none => none
    match targetWs with
    | some w =>
        if w.isOpen then [.send (.user w.userId) (.answer sender.userId sdp)]
        else []
    | none => []

/-- handleIceCandidate (src/server.js lines 413 to 444). -/
def handleIceCandidate (data : Envelope) (sender : Conn) (room : Room) : List Effect :=
  if truthy data.target = false || truthy data.candidate = false then []
  else
    let target := data.target.getD ""
    let candidate := data.candidate.getD ""
    let targetWs : Option Conn :=
      if sender.isHost then mget target room.viewers
      else
        match room.host with
        | some h => if h.userId = target then some h else none
        | none => none
    match targetWs with
    | some w =>
        if w.isOpen then [.send (.user w.userId) (.iceCandidate sender.userId candidate)]
        else []
    | none => []

/-- The ws message handler (src/server.js lines 182 to 289).  sender
carries the closure values userId, username, role, isHost; room is the
room object captured at join (line 104).  The source catch block turns a
JSON.parse failure into an error reply and leaves the connection open.
Every branch only reads the maps and sends; none writes the Room Table
or the Session Index. -/
def handleMessage (raw : Inbound) (sender : Conn) (room : Room) : List Effect :=
  match raw with
  | .malformed => [.send .self (.errorMsg "Invalid JSON message" none)]
  | .env data =>
    if data.type = "offer" then handleOffer data sender room
    else if data.type = "answer" then handleAnswer data sender room
    else if data.type = "ice-candidate" then handleIceCandidate data sender room
    else if data.type = "screen-sharing-started" then
      if sender.isHost then
        room.viewers.filterMap (fun v =>
          if v.2.isOpen then
            some (Effect.send (.user v.2.userId)
              (.screenSharingStarted sender.userId sender.username))
          else none)
      else []
    else if data.type = "screen-sharing-stopped" then
      if sender.isHost then
        room.viewers.filterMap (fun v =>
          if v.2.isOpen then
            some (Effect.send (.user v.2.userId) (.screenSharingStopped sender.userId))
          else none)
      else []
    else if data.type = "request-screen" then
      match room.host with
      | some h =>
          if !sender.isHost && h.isOpen then
            [.send (.user h.userId) (.screenRequest sender.userId sender.username)]
          else []
      | none => []
    else if data.type = "ping" then [.send .self .pong]
    else if data.type = "get-room-info" then
      [.send .self (.roomInfo sender.roomId
        (room.host.map (fun h => (h.userId, h.username)))
        (room.viewers.map (fun v => (v.2.userId, v.2.username)))
        room.viewers.length)]
    else [.send .self (.errorMsg ("Unknown message type: " ++ data.type) none)]

/-- One inbound message as a step on the server state.  The source
message path performs no write to rooms or userSessions (every case of
the switch only sends), so the state passes through unchanged. -/
def messageStep (st : ServerState) (sender : Conn) (room : Room) (raw : Inbound) :
    ServerState × List Effect :=
  (st, handleMessage raw sender room)

/-- Required-field check the claims call malformed: undecodable JSON, or
a relay type missing the fields its handler destructures. -/
def malformedMsg (raw : Inbound) : Bool :=
  match raw with
  | .malformed => true
  | .env data =>
    if data.type = "offer" || data.type = "answer" then
      !(truthy data.target) || !(truthy data.sdp)
    else if data.type = "ice-candidate" then
      !(truthy data.target) || !(truthy data.candidate)
    else false

/-- Activity test the cleanup sweep applies to one member (src/server.js
lines 603 to 620): ws open, session still present, and connectedAt within
the 30 minute window.  Nat subtraction truncates at zero, which agrees
with the JavaScript comparison for any connectedAt. -/
def sessionActive (sessions : List (String × Session)) (now : Nat) (w : Conn) : Bool :=
  w.isOpen &&
    (match mget w.userId sessions with
     | some s => decide (now - s.connectedAt < 30 * 60 * 1000)
     | none => false)

/-- hasActiveConnections of the sweep body: host first, viewers only
when the host test failed (a short-circuit or). -/
def hasActiveConnections (room : Room) (sessions : List (String × Session)) (now : Nat) :
    Bool :=
  (match room.host with
   | some h => sessionActive sessions now h
   | none => false)
  || room.viewers.any (fun v => sessionActive sessions now v.2)

/-- The periodic idle-room cleanup (src/server.js lines 595 to 634): it
deletes every room with no active member and touches nothing else — it
sends no message, closes no socket, and leaves userSessions intact, so
its effect list is empty. -/
def cleanupStep (st : ServerState) (now : Nat) : ServerState × List Effect :=
  ({ st with
      rooms := st.rooms.filter (fun p => hasActiveConnections p.2 st.userSessions now) },
   [])

/-! ### Association-list lemmas -/

theorem mget_mset (k k' : String) (v : α) (m : List (String × α)) :
    mget k' (mset k v m) = if k = k' then some v else mget k' m := by
  induction m with
  | nil => simp [mget, mset]
  | cons hd tl ih =>
    obtain ⟨k₁, v₁⟩ := hd
    by_cases h₂ : k = k'
    · subst h₂
      by_cases h₁ : k₁ = k <;> simp [mget, mset, h₁, ih]
    · by_cases h₁ : k₁ = k <;> simp [mget, mset, h₁, h₂, ih]

theorem mget_mdel (k k' : String) (m : List (String × α)) :
    mget k' (mdel k m) = if k = k' then none else mget k' m := by
  induction m with
  | nil => simp [mget, mdel]
  | cons hd tl ih =>
    obtain ⟨k₁, v₁⟩ := hd
    by_cases h₂ : k = k'
    · subst h₂
      by_cases h₁ : k₁ = k <;> simp [mget, mdel, h₁, ih]
    · by_cases h₁ : k₁ = k <;> simp [mget, mdel, h₁, h₂, ih]

theorem mget_eq_none_iff (k : String) (m : List (String × α)) :
    mget k m = none ↔ k ∉ keys m := by
  induction m with
  | nil => simp [mget, keys]
  | cons hd tl ih =>
    obtain ⟨k₁, v₁⟩ := hd
    by_cases h₁ : k₁ = k
    · subst h₁; simp [mget, keys]
    · have h₂ : k ≠ k₁ := fun h => h₁ h.symm
      simp [mget, keys, h₁, h₂, ih]

theorem mdel_of_mget_none (k : String) (m : List (String × α))
    (h : mget k m = none) : mdel k m = m := by
  induction m with
  | nil => simp [mdel]
  | cons hd tl ih =>
    obtain ⟨k₁, v₁⟩ := hd
    by_cases h₁ : k₁ = k
    · simp [mget, h₁] at h
    · simp [mget, h₁] at h
      simp [mdel, h₁, ih h]

theorem mset_of_mget_eq (k : String) (v : α) (m : List (String × α))
    (h : mget k m = some v) : mset k v m = m := by
  induction m with
  | nil => simp [mget] at h
  | cons hd tl ih =>
    obtain ⟨k₁, v₁⟩ := hd
    by_cases h₁ : k₁ = k
    · subst h₁
      simp [mget] at h
      simp [mset, h]
    · simp [mget, h₁] at h
      simp [mset, h₁, ih h]

theorem mset_ne_nil (k : String) (v : α) (m : List (String × α)) :
    mset k v m ≠ [] := by
  cases m with
  | nil => simp [mset]
  | cons hd tl =>
    obtain ⟨k₁, v₁⟩ := hd
    by_cases h : k₁ = k <;> simp [mset, h]

theorem mdel_sublist (k : String) (m : List (String × α)) :
    (mdel k m).Sublist m := by
  induction m with
  | nil => simp [mdel]
  | cons hd tl ih =>
    obtain ⟨k₁, v₁⟩ := hd
    by_cases h₁ : k₁ = k
    · simp only [mdel, h₁, if_pos rfl]
      exact ih.trans (List.sublist_cons_self _ _)
    · simp only [mdel, h₁, if_neg h₁]
      exact ih.cons₂ _

theorem mget_filter (f : α → Bool) (k : String) (m : List (String × α))
    (hnd : (keys m).Nodup) :
    mget k (m.filter (fun p => f p.2)) =
      (mget k m).bind (fun v => if f v then some v else none) := by
  induction m with
  | nil => simp [mget]
  | cons hd tl ih =>
    obtain ⟨k₁, v₁⟩ := hd
    simp only [keys, List.map_cons, List.nodup_cons] at hnd
    obtain ⟨hk, hnd'⟩ := hnd
    by_cases h₁ : k₁ = k
    · subst h₁
      have htl : mget k₁ tl = none := (mget_eq_none_iff _ _).2 hk
      cases hf : f v₁ with
      | true =>
        simp [List.filter_cons, hf, mget]
      | false =>
        have : mget k₁ (tl.filter (fun p => f p.2)) = none := by
          rw [mget_eq_none_iff]
          intro hmem
          apply hk
          simp only [keys, List.mem_map] at hmem ⊢
          obtain ⟨p, hp, hpk⟩ := hmem
          exact ⟨p, (List.mem_filter.1 hp).1, hpk⟩
        simp [List.filter_cons, hf, mget, this]
    · cases hf : f v₁ with
      | true => simp [List.filter_cons, hf, mget, h₁, ih hnd']
      | false => simp [List.filter_cons, hf, mget, h₁, ih hnd']

/-! ### Reachability under the event handlers -/

/-- States reachable from the empty maps by any sequence of connection
events and close events (the claims about clean disconnects are a
special case: the proofs below do not even need the close event to match
a registered connection). -/
inductive Reachable : ServerState → Prop where
  | init : Reachable { rooms := [], userSessions := [] }
  | connect {st : ServerState} (p : ConnectParams) (g : String) (now : Nat) :
      Reachable st → Reachable (connectStep st p g now).1
  | close {st : ServerState} (ev : CloseEv) :
      Reachable st → Reachable (closeStep st ev).1

/-- Invariant R1, the nontrivial direction: every room present in the
Room Table has at least one member.  (The converse direction is
definitional: membership is an entry inside a room stored in the
table.) -/
def RoomsNonempty (st : ServerState) : Prop :=
  ∀ rid r, mget rid st.rooms = some r → roomEmpty r = false

theorem joinRoom_preserves_nonempty (st : ServerState)
    (roomId username role : String) (isHost : Bool) (g : String) (now : Nat)
    (h : RoomsNonempty st) :
    RoomsNonempty (joinRoom st roomId username role isHost g now).1 := by
  intro rid r hr
  cases isHost with
  | true =>
    simp only [joinRoom, ite_true, Bool.false_eq_true, ite_false] at hr
    rw [mget_mset] at hr
    by_cases hk : roomId = rid
    · rw [if_pos hk] at hr
      cases hr
      simp [roomEmpty]
    · rw [if_neg hk] at hr
      exact h rid r hr
  | false =>
    simp only [joinRoom, ite_true, Bool.false_eq_true, ite_false] at hr
    rw [mget_mset] at hr
    by_cases hk : roomId = rid
    · rw [if_pos hk] at hr
      cases hr
      cases hv : mset g
          { userId := g, roomId := roomId, username := username,
            role := role, isHost := false, isOpen := true }
          (match mget roomId st.rooms with
           | some r => r
           | none => { host := none, viewers := [] }).viewers with
      | nil => exact absurd hv (mset_ne_nil _ _ _)
      | cons a l => simp [roomEmpty, hv]
    · rw [if_neg hk] at hr
      exact h rid r hr

theorem connectStep_preserves_nonempty (st : ServerState) (p : ConnectParams)
    (g : String) (now : Nat) (h : RoomsNonempty st) :
    RoomsNonempty (connectStep st p g now).1 := by
  unfold connectStep
  by_cases ht : truthy p.room = false
  · simp only [ht, ite_true]
    exact h
  · rw [if_neg ht]
    by_cases hh : ((strOr p.role "viewer" == "host") &&
        hostTaken st.rooms (p.room.getD "")) = true
    · simp only [hh, ite_true]
      exact h
    · rw [if_neg hh]
      exact joinRoom_preserves_nonempty _ _ _ _ _ _ _ h

theorem closeStep_preserves_nonempty (st : ServerState) (ev : CloseEv)
    (h : RoomsNonempty st) : RoomsNonempty (closeStep st ev).1 := by
  intro rid r hr
  unfold closeStep at hr
  cases hrm : mget ev.roomId st.rooms with
  | none =>
    rw [hrm] at hr
    exact h rid r hr
  | some room =>
    rw [hrm] at hr
    cases hih : ev.isHost with
    | true =>
      simp only [hih, ite_true, Bool.false_eq_true, ite_false] at hr
      by_cases he : roomEmpty { room with host := none } = true
      · simp only [he, ite_true] at hr
        rw [mget_mdel] at hr
        by_cases hk : ev.roomId = rid
        · rw [if_pos hk] at hr; cases hr
        · rw [if_neg hk] at hr; exact h rid r hr
      · rw [if_neg he] at hr
        rw [mget_mset] at hr
        by_cases hk : ev.roomId = rid
        · rw [if_pos hk] at hr
          cases hr
          simpa using he
        · rw [if_neg hk] at hr
          exact h rid r hr
    | false =>
      simp only [hih, ite_true, Bool.false_eq_true, ite_false] at hr
      by_cases he : roomEmpty { room with viewers := mdel ev.userId room.viewers } = true
      · simp only [he, ite_true] at hr
        rw [mget_mdel] at hr
        by_cases hk : ev.roomId = rid
        · rw [if_pos hk] at hr; cases hr
        · rw [if_neg hk] at hr; exact h rid r hr
      · rw [if_neg he] at hr
        rw [mget_mset] at hr
        by_cases hk : ev.roomId = rid
        · rw [if_pos hk] at hr
          cases hr
          simpa using he
        · rw [if_neg hk] at hr
          exact h rid r hr

/-! ### Claim C1: host-slot exclusivity -/

/-- C1: at most one connection holds a room's host slot (the slot is a
single optional reference, so this is structural); a host join on a room
that already has a live host is rejected with the HOST_EXISTS error and
a 4002 close, mutating neither the Room Table nor the Session Index,
while a host join on a room with no current host installs the new
connection as the sole host. -/
theorem hostSlot_exclusive
    (st : ServerState) (p : ConnectParams) (g : String) (now : Nat) (rid : String)
    (hroom : p.room = some rid) (hrid : rid ≠ "") (hrole : p.role = some "host") :
    (∀ r hc, mget rid st.rooms = some r → r.host = some hc → hc.isOpen = true →
      connectStep st p g now =
        (st, [.send .self (.errorMsg "Host already exists in this room" (some "HOST_EXISTS")),
              .closeConn 4002 "Host already exists"]))
    ∧ ((mget rid st.rooms = none ∨ ∃ r, mget rid st.rooms = some r ∧ r.host = none) →
      ∃ r₁, mget rid (connectStep st p g now).1.rooms = some r₁ ∧
        r₁.host = some { userId := g, roomId := rid,
                         username := strOr p.username "Anonymous",
                         role := "host", isHost := true, isOpen := true }) := by
  have htru : truthy (some rid) = true := by
    simp [truthy, hrid]
  have hrole₁ : strOr p.role "viewer" = "host" := by
    rw [hrole]; simp [strOr]
  constructor
  · intro r hc hr hh _
    simp [connectStep, htru, hroom, hrole₁, hostTaken, hr, hh]
  · intro hcase
    have hnt : hostTaken st.rooms rid = false := by
      rcases hcase with hnone | ⟨r, hr, hh⟩
      · simp [hostTaken, hnone]
      · simp [hostTaken, hr, hh]
    have hstep : connectStep st p g now =
        joinRoom st rid (strOr p.username "Anonymous") "host" true g now := by
      simp [connectStep, htru, hroom, hrole₁, hnt]
    rw [hstep]
    simp only [joinRoom, ite_true]
    rw [mget_mset, if_pos rfl]
    exact ⟨_, rfl, rfl⟩

/-- Concrete fixtures used by the witnesses. -/
def stEmpty : ServerState := { rooms := [], userSessions := [] }

def pHostA : ConnectParams :=
  { room := some "movie1", username := some "A", role := some "host" }

def pViewerB : ConnectParams :=
  { room := some "movie1", username := some "B", role := some "viewer" }

def stA : ServerState := (connectStep stEmpty pHostA "a" 0).1

def cA : Conn :=
  { userId := "a", roomId := "movie1", username := "A", role := "host",
    isHost := true, isOpen := true }

theorem hostSlot_exclusive_witness :
    (connectStep stA
        { room := some "movie1", username := some "B", role := some "host" } "b" 1 =
      (stA,
       [.send .self (.errorMsg "Host already exists in this room" (some "HOST_EXISTS")),
        .closeConn 4002 "Host already exists"]))
    ∧ (∃ r₁, mget "movie1" (connectStep stEmpty pHostA "a" 0).1.rooms = some r₁ ∧
        r₁.host = some cA) :=
  ⟨(hostSlot_exclusive stA _ "b" 1 "movie1" rfl (by decide) rfl).1
      { host := some cA, viewers := [] } cA (by decide) (by decide) (by decide),
   (hostSlot_exclusive stEmpty pHostA "a" 0 "movie1" rfl (by decide) rfl).2
      (Or.inl (by decide))⟩

/-! ### Claim C2: a room is present iff it has a member -/

/-- C2: under every sequence of connection and close events, every room
present in the Room Table has at least one member (the converse — a
member implies presence — is definitional, since membership is an entry
of a room stored in the table); a first successful join to an unseen
room id creates the room; and a close event that removes the last
member (a host with no viewers, or the sole viewer of a hostless room)
deletes the room id from the table. -/
theorem room_present_iff_member :
    (∀ st, Reachable st → RoomsNonempty st)
    ∧ (∀ st p g now rid, p.room = some rid → rid ≠ "" →
        mget rid st.rooms = none →
        ∃ r, mget rid (connectStep st p g now).1.rooms = some r)
    ∧ (∀ st ev r, mget ev.roomId st.rooms = some r →
        ((ev.isHost = true ∧ r.viewers = []) ∨
         (ev.isHost = false ∧ r.host = none ∧ ∃ c, r.viewers = [(ev.userId, c)])) →
        mget ev.roomId (closeStep st ev).1.rooms = none) := by
  refine ⟨?_, ?_, ?_⟩
  · intro st h
    induction h with
    | init => intro rid r hr; simp [mget] at hr
    | connect p g now _ ih => exact connectStep_preserves_nonempty _ _ _ _ ih
    | close ev _ ih => exact closeStep_preserves_nonempty _ _ ih
  · intro st p g now rid hroom hrid hnone
    have htru : truthy (some rid) = true := by simp [truthy, hrid]
    have hnt : hostTaken st.rooms rid = false := by simp [hostTaken, hnone]
    have hstep : connectStep st p g now =
        joinRoom st rid (strOr p.username "Anonymous") (strOr p.role "viewer")
          (strOr p.role "viewer" == "host") g now := by
      simp [connectStep, htru, hroom, hnt]
    rw [hstep]
    cases hB : (strOr p.role "viewer" == "host") with
    | true =>
      simp only [joinRoom, ite_true]
      rw [mget_mset, if_pos rfl]
      exact ⟨_, rfl⟩
    | false =>
      simp only [joinRoom, Bool.false_eq_true, ite_false]
      rw [mget_mset, if_pos rfl]
      exact ⟨_, rfl⟩
  · intro st ev r hr hc
    rcases hc with ⟨hih, hv⟩ | ⟨hih, hh, c, hv⟩
    · simp only [closeStep, hr, hih, ite_true]
      have he : roomEmpty { r with host := none } = true := by
        simp [roomEmpty, hv]
      simp only [he, ite_true]
      rw [mget_mdel, if_pos rfl]
    · simp only [closeStep, hr, hih, Bool.false_eq_true, ite_false]
      have he : roomEmpty { r with viewers := mdel ev.userId r.viewers } = true := by
        simp [roomEmpty, hh, hv, mdel]
      simp only [he, ite_true]
      rw [mget_mdel, if_pos rfl]

theorem room_present_iff_member_witness :
    RoomsNonempty stA
    ∧ (∃ r, mget "movie1" (connectStep stEmpty pHostA "a" 0).1.rooms = some r)
    ∧ mget "movie1" (closeStep stA
        { userId := "a", roomId := "movie1", username := "A", isHost := true }).1.rooms = none :=
  ⟨room_present_iff_member.1 stA (Reachable.connect pHostA "a" 0 Reachable.init),
   room_present_iff_member.2.1 stEmpty pHostA "a" 0 "movie1" rfl (by decide) (by decide),
   room_present_iff_member.2.2 stA
     { userId := "a", roomId := "movie1", username := "A", isHost := true }
     { host := some cA, viewers := [] } (by decide) (Or.inl ⟨rfl, rfl⟩)⟩

/-! ### Claim C3: the disconnect path is not idempotent -/

theorem isEmpty_false_of_ne_nil {l : List α} (h : l ≠ []) : l.isEmpty = false := by
  cases l with
  | nil => exact absurd rfl h
  | cons a t => rfl

def evA : CloseEv :=
  { userId := "a", roomId := "movie1", username := "A", isHost := true }

def stDisc : ServerState := (closeStep stA evA).1

def pHostB : ConnectParams :=
  { room := some "movie1", username := some "B", role := some "host" }

def stB : ServerState := (connectStep stDisc pHostB "b" 1).1

/-- C3 counterexample: host a joins room movie1, disconnects, host b
joins the recreated room; rerunning the disconnect path for a now
changes the state again — it clears the slot of the later-joined host b
and deletes the room, although b is still registered. -/
theorem close_not_idempotent_cex :
    (closeStep stB evA).1 ≠ stB
    ∧ mget "movie1" (closeStep stB evA).1.rooms = none
    ∧ mget "movie1" stB.rooms =
        some { host := some { userId := "b", roomId := "movie1", username := "B",
                              role := "host", isHost := true, isOpen := true },
               viewers := [] }
    ∧ (mget "b" (closeStep stB evA).1.userSessions).isSome = true := by
  refine ⟨by decide, by decide, by decide, by decide⟩

/-- C3 amended: the disconnect path is idempotent for viewer
connections — rerunning it for an id that is no longer registered
leaves the Room Table and Session Index unchanged — but not for host
connections: the host branch clears the room's host slot
unconditionally, so a second invocation on a room whose slot a
later-joined host occupies removes that host (and deletes the room if
it is then empty). -/
theorem close_idempotent_amended :
    (∀ st ev, ev.isHost = false →
      mget ev.userId st.userSessions = none →
      ((mget ev.roomId st.rooms).all
        (fun r => (mget ev.userId r.viewers).isNone && !(roomEmpty r))) = true →
      (closeStep st ev).1 = st)
    ∧ (∀ st ev r, ev.isHost = true → mget ev.roomId st.rooms = some r →
        (r.viewers = [] → mget ev.roomId (closeStep st ev).1.rooms = none)
        ∧ (r.viewers ≠ [] →
            ∃ r₁, mget ev.roomId (closeStep st ev).1.rooms = some r₁ ∧ r₁.host = none)) := by
  constructor
  · intro st ev hih hsess hall
    cases hrm : mget ev.roomId st.rooms with
    | none =>
      simp [closeStep, hrm, mdel_of_mget_none _ _ hsess]
    | some room =>
      rw [hrm] at hall
      simp only [Option.all_some, Bool.and_eq_true, Bool.not_eq_true',
        Option.isNone_iff_eq_none] at hall
      obtain ⟨h₁, h₂⟩ := hall
      simp only [closeStep, hrm, hih, Bool.false_eq_true, ite_false]
      rw [mdel_of_mget_none _ _ h₁]
      have hroom : { room with viewers := room.viewers } = room := rfl
      rw [hroom, h₂]
      simp only [Bool.false_eq_true, ite_false]
      rw [mset_of_mget_eq _ _ _ hrm, mdel_of_mget_none _ _ hsess]
  · intro st ev r hih hr
    constructor
    · intro hv
      simp only [closeStep, hr, hih, ite_true]
      have he : roomEmpty { r with host := none } = true := by
        simp [roomEmpty, hv]
      simp only [he, ite_true]
      rw [mget_mdel, if_pos rfl]
    · intro hv
      simp only [closeStep, hr, hih, ite_true]
      have he : roomEmpty { r with host := none } = false := by
        simp [roomEmpty, isEmpty_false_of_ne_nil hv]
      simp only [he, Bool.false_eq_true, ite_false]
      rw [mget_mset, if_pos rfl]
      exact ⟨_, rfl, rfl⟩

theorem close_idempotent_amended_witness :
    (closeStep stA
        { userId := "ghost", roomId := "movie1", username := "G", isHost := false }).1 = stA
    ∧ ((([] : List (String × Conn)) = [] →
          mget "movie1" (closeStep stA evA).1.rooms = none)
       ∧ (([] : List (String × Conn)) ≠ [] →
          ∃ r₁, mget "movie1" (closeStep stA evA).1.rooms = some r₁ ∧ r₁.host = none)) :=
  ⟨close_idempotent_amended.1 stA
      { userId := "ghost", roomId := "movie1", username := "G", isHost := false }
      rfl (by decide) (by decide),
   close_idempotent_amended.2 stA evA { host := some cA, viewers := [] } rfl (by decide)⟩

/-! ### Claim C4: offer relay fidelity -/

/-- C4: an offer envelope with truthy target t and sdp s from a
registered sender is delivered — when t resolves under the targeting
rule (a host looks t up among the room viewers, a viewer must name the
room host) to a live peer — to exactly that peer as an offer carrying
the sender id, the sender name and s unchanged, and to nobody else;
when t resolves to a non-live peer or to nobody, no outbound message is
produced and no error is sent to the sender. -/
theorem offer_relay_correct
    (data : Envelope) (sender : Conn) (room : Room) (t s : String)
    (htype : data.type = "offer") (htar : data.target = some t) (ht : t ≠ "")
    (hsdp : data.sdp = some s) (hs : s ≠ "") :
    (∀ w, (if sender.isHost then mget t room.viewers
           else match room.host with
                | some h => if h.userId = t then some h else none
                | none => none) = some w →
       (w.isOpen = true →
         handleMessage (.env data) sender room =
           [.send (.user w.userId) (.offer sender.userId sender.username s)])
       ∧ (w.isOpen = false → handleMessage (.env data) sender room = []))
    ∧ ((if sender.isHost then mget t room.viewers
        else match room.host with
             | some h => if h.userId = t then some h else none
             | none => none) = none →
        handleMessage (.env data) sender room = []) := by
  have hmsg : handleMessage (.env data) sender room = handleOffer data sender room := by
    simp [handleMessage, htype]
  have hguard : handleOffer data sender room =
      match (if sender.isHost then mget t room.viewers
             else match room.host with
                  | some h => if h.userId = t then some h else none
                  | none => none) with
      | some w =>
          if w.isOpen then [.send (.user w.userId) (.offer sender.userId sender.username s)]
          else []
      | none => [] := by
    simp [handleOffer, htar, hsdp, truthy, ht, hs]
  constructor
  · intro w hw
    constructor
    · intro hopen
      rw [hmsg, hguard]
      simp [hw, hopen]
    · intro hopen
      rw [hmsg, hguard]
      simp [hw, hopen]
  · intro hnone
    rw [hmsg, hguard]
    simp [hnone]

def cBv : Conn :=
  { userId := "b", roomId := "movie1", username := "B", role := "viewer",
    isHost := false, isOpen := true }

def offerData : Envelope :=
  { type := "offer", target := some "b", sdp := some "v=0 test", candidate := none }

def roomAB : Room := { host := some cA, viewers := [("b", cBv)] }

theorem offer_relay_correct_witness :
    (handleMessage (.env offerData) cA roomAB =
      [.send (.user "b") (.offer "a" "A" "v=0 test")])
    ∧ (handleMessage
        (.env { type := "offer", target := some "zz", sdp := some "v=0 test",
                candidate := none }) cA roomAB = []) :=
  ⟨((offer_relay_correct offerData cA roomAB "b" "v=0 test" rfl rfl (by decide)
      rfl (by decide)).1 cBv (by decide)).1 rfl,
   (offer_relay_correct
      { type := "offer", target := some "zz", sdp := some "v=0 test", candidate := none }
      cA roomAB "zz" "v=0 test" rfl rfl (by decide) rfl (by decide)).2 (by decide)⟩

/-! ### Claim C5: malformed messages mutate nothing and never close -/

theorem handleOffer_guard (data : Envelope) (sender : Conn) (room : Room)
    (h : truthy data.target = false ∨ truthy data.sdp = false) :
    handleOffer data sender room = [] := by
  rcases h with h | h <;> simp [handleOffer, h]

theorem handleAnswer_guard (data : Envelope) (sender : Conn) (room : Room)
    (h : truthy data.target = false ∨ truthy data.sdp = false) :
    handleAnswer data sender room = [] := by
  rcases h with h | h <;> simp [handleAnswer, h]

theorem handleIceCandidate_guard (data : Envelope) (sender : Conn) (room : Room)
    (h : truthy data.target = false ∨ truthy data.candidate = false) :
    handleIceCandidate data sender room = [] := by
  rcases h with h | h <;> simp [handleIceCandidate, h]

theorem malformed_effects (sender : Conn) (room : Room) (raw : Inbound)
    (hm : malformedMsg raw = true) :
    handleMessage raw sender room = [.send .self (.errorMsg "Invalid JSON message" none)]
    ∨ handleMessage raw sender room = [] := by
  cases raw with
  | malformed => exact Or.inl rfl
  | env data =>
    right
    by_cases h₁ : data.type = "offer"
    · have hdisj : truthy data.target = false ∨ truthy data.sdp = false := by
        by_contra hcon
        push_neg at hcon
        obtain ⟨ha, hb⟩ := hcon
        have ha' : truthy data.target = true := by simpa using ha
        have hb' : truthy data.sdp = true := by simpa using hb
        simp [malformedMsg, h₁, ha', hb'] at hm
      have hroute : handleMessage (.env data) sender room = handleOffer data sender room := by
        simp [handleMessage, h₁]
      rw [hroute]
      exact handleOffer_guard _ _ _ hdisj
    · by_cases h₂ : data.type = "answer"
      · have hdisj : truthy data.target = false ∨ truthy data.sdp = false := by
          by_contra hcon
          push_neg at hcon
          obtain ⟨ha, hb⟩ := hcon
          have ha' : truthy data.target = true := by simpa using ha
          have hb' : truthy data.sdp = true := by simpa using hb
          simp [malformedMsg, h₁, h₂, ha', hb'] at hm
        have hroute : handleMessage (.env data) sender room =
            handleAnswer data sender room := by
          simp [handleMessage, h₁, h₂]
        rw [hroute]
        exact handleAnswer_guard _ _ _ hdisj
      · by_cases h₃ : data.type = "ice-candidate"
        · have hdisj : truthy data.target = false ∨ truthy data.candidate = false := by
            by_contra hcon
            push_neg at hcon
            obtain ⟨ha, hb⟩ := hcon
            have ha' : truthy data.target = true := by simpa using ha
            have hb' : truthy data.candidate = true := by simpa using hb
            simp [malformedMsg, h₁, h₂, h₃, ha', hb'] at hm
          have hroute : handleMessage (.env data) sender room =
              handleIceCandidate data sender room := by
            simp [handleMessage, h₁, h₂, h₃]
          rw [hroute]
          exact handleIceCandidate_guard _ _ _ hdisj
        · simp [malformedMsg, h₁, h₂, h₃] at hm

/-- C5: a malformed inbound message — undecodable JSON, or a relay
envelope missing the required fields of its declared type — leaves the
Room Table and Session Index exactly as they were (the source message
path never writes them), produces no close of the connection, and the
sender stays registered. -/
theorem malformed_no_mutation
    (st : ServerState) (sender : Conn) (room : Room) (raw : Inbound)
    (hm : malformedMsg raw = true) :
    (messageStep st sender room raw).1 = st
    ∧ (∀ e ∈ (messageStep st sender room raw).2, ∀ c reason, e ≠ Effect.closeConn c reason)
    ∧ mget sender.userId (messageStep st sender room raw).1.userSessions
        = mget sender.userId st.userSessions := by
  refine ⟨rfl, ?_, rfl⟩
  intro e he c reason hne
  rcases malformed_effects sender room raw hm with h | h <;>
    · simp only [messageStep, h] at he
      simp at he
      try (subst he; cases hne)

theorem malformed_no_mutation_witness :
    (messageStep stA cA roomAB .malformed).1 = stA
    ∧ (∀ e ∈ (messageStep stA cA roomAB .malformed).2, ∀ c reason,
        e ≠ Effect.closeConn c reason)
    ∧ mget "a" (messageStep stA cA roomAB .malformed).1.userSessions
        = mget "a" stA.userSessions :=
  malformed_no_mutation stA cA roomAB .malformed rfl

/-! ### Claim C6: notifications on viewer join -/

/-- C6 counterexample: viewer b joins room movie1 whose live host is a;
the only effects of the join are the host-info and welcome messages
sent to b itself — in particular the host a receives no viewer-joined
message (every effect of the join targets the joining socket). -/
theorem viewer_join_no_host_notice_cex :
    (connectStep stA pViewerB "b" 1).2 =
      [.send .self (.hostInfo "a" "A"),
       .send .self (.welcome "b" "B" "movie1" "viewer" false "Connected as viewer")]
    ∧ ((connectStep stA pViewerB "b" 1).2.all
        (fun e => match e with
          | .send .self _ => true
          | _ => false)) = true := by
  refine ⟨by decide, by decide⟩

/-- C6 amended: on a viewer join into a room with a live host, the
joining viewer receives host-info carrying the host id and name
(followed by its welcome message); the host receives no notification —
the connection handler never emits a viewer-joined message. -/
theorem viewer_join_notifications_amended
    (st : ServerState) (p : ConnectParams) (g : String) (now : Nat)
    (rid : String) (r : Room) (hc : Conn)
    (hroom : p.room = some rid) (hrid : rid ≠ "")
    (hrole : strOr p.role "viewer" ≠ "host")
    (hr : mget rid st.rooms = some r) (hh : r.host = some hc)
    (hopen : hc.isOpen = true) :
    (connectStep st p g now).2 =
      [.send .self (.hostInfo hc.userId hc.username),
       .send .self (.welcome g (strOr p.username "Anonymous") rid (strOr p.role "viewer")
         false ("Connected as " ++ strOr p.role "viewer"))] := by
  have htru : truthy (some rid) = true := by simp [truthy, hrid]
  have hB : (strOr p.role "viewer" == "host") = false := by
    simp [hrole]
  have hstep : connectStep st p g now =
      joinRoom st rid (strOr p.username "Anonymous") (strOr p.role "viewer") false g now := by
    simp [connectStep, htru, hroom, hB]
  rw [hstep]
  simp [joinRoom, hr, hh, hopen]

theorem viewer_join_notifications_amended_witness :
    (connectStep stA
      { room := some "movie1", username := some "C", role := none } "c" 2).2 =
      [.send .self (.hostInfo "a" "A"),
       .send .self (.welcome "c" "C" "movie1" "viewer" false "Connected as viewer")] :=
  viewer_join_notifications_amended stA
    { room := some "movie1", username := some "C", role := none } "c" 2 "movie1"
    { host := some cA, viewers := [] } cA rfl (by decide) (by decide) (by decide) rfl rfl

/-! ### Claim C7: screen request routing -/

/-- C7 counterexample: an inbound envelope whose type is literally
screen-request falls through every dispatch case into the default
branch — the sender gets an unknown-type error reply and the host
receives nothing.  The type the router serves is request-screen; the
outbound message it then produces is the one named screen-request. -/
theorem screen_request_type_cex :
    handleMessage
        (.env { type := "screen-request", target := none, sdp := none, candidate := none })
        cBv roomAB =
      [.send .self (.errorMsg "Unknown message type: screen-request" none)] := by
  decide

/-- C7 amended: an inbound request-screen envelope from a viewer is
delivered to the room's live host as a screen-request message carrying
the viewer id and name; with no live host (slot empty, or the host
socket not open) it is dropped silently, and no other member ever
receives it. -/
theorem request_screen_relay_amended
    (data : Envelope) (sender : Conn) (room : Room)
    (htype : data.type = "request-screen") (hsender : sender.isHost = false) :
    (∀ hc, room.host = some hc → hc.isOpen = true →
      handleMessage (.env data) sender room =
        [.send (.user hc.userId) (.screenRequest sender.userId sender.username)])
    ∧ (room.host = none → handleMessage (.env data) sender room = [])
    ∧ (∀ hc, room.host = some hc → hc.isOpen = false →
      handleMessage (.env data) sender room = []) := by
  refine ⟨?_, ?_, ?_⟩
  · intro hc hh hopen
    simp [handleMessage, htype, hh, hsender, hopen]
  · intro hh
    simp [handleMessage, htype, hh]
  · intro hc hh hopen
    simp [handleMessage, htype, hh, hsender, hopen]

theorem request_screen_relay_amended_witness :
    handleMessage
        (.env { type := "request-screen", target := none, sdp := none, candidate := none })
        cBv roomAB =
      [.send (.user "a") (.screenRequest "b" "B")] :=
  (request_screen_relay_amended
    { type := "request-screen", target := none, sdp := none, candidate := none }
    cBv roomAB rfl rfl).1 cA rfl rfl

/-! ### Claim C8: uniqueness of connection ids -/

/-- Ids registered as members of one room: the id in the host slot, if
occupied, followed by the viewer Map keys. -/
def roomIds (r : Room) : List String :=
  (match r.host with
   | some h => [h.userId]
   | none => []) ++ keys r.viewers

/-- Freshness of a generated id with respect to the current state: not a
Session Index key and not a member id of any room.  generateUserId
draws from Math.random without any such check, so freshness is an
assumption about the generator, not a property of the code. -/
def freshId (g : String) (st : ServerState) : Bool :=
  (mget g st.userSessions).isNone &&
    st.rooms.all (fun p => !(decide (g ∈ roomIds p.2)))

/-- No two currently-registered Session Index entries share a key, no
two members of one room share an id, and no id is a member of two
different rooms. -/
def DistinctIds (st : ServerState) : Prop :=
  (keys st.userSessions).Nodup
  ∧ (∀ rid r, mget rid st.rooms = some r → (roomIds r).Nodup)
  ∧ (∀ rid₁ r₁ rid₂ r₂ u, mget rid₁ st.rooms = some r₁ →
      mget rid₂ st.rooms = some r₂ →
      u ∈ roomIds r₁ → u ∈ roomIds r₂ → rid₁ = rid₂)

/-- Traces in which every generated id is fresh at its connect event. -/
inductive ReachableFresh : ServerState → Prop where
  | init : ReachableFresh { rooms := [], userSessions := [] }
  | connect {st : ServerState} (p : ConnectParams) (g : String) (now : Nat) :
      freshId g st = true → ReachableFresh st →
      ReachableFresh (connectStep st p g now).1
  | close {st : ServerState} (ev : CloseEv) :
      ReachableFresh st → ReachableFresh (closeStep st ev).1

theorem mget_mem {k : String} {v : α} {m : List (String × α)}
    (h : mget k m = some v) : (k, v) ∈ m := by
  induction m with
  | nil => simp [mget] at h
  | cons hd tl ih =>
    obtain ⟨k₁, v₁⟩ := hd
    by_cases h₁ : k₁ = k
    · subst h₁
      simp [mget] at h
      simp [h]
    · simp [mget, h₁] at h
      exact List.mem_cons_of_mem _ (ih h)

theorem keys_cons (a : String) (b : α) (l : List (String × α)) :
    keys ((a, b) :: l) = a :: keys l := rfl

theorem mem_keys_mset (x k : String) (v : α) (m : List (String × α)) :
    x ∈ keys (mset k v m) ↔ x = k ∨ x ∈ keys m := by
  induction m with
  | nil => simp [mset, keys]
  | cons hd tl ih =>
    obtain ⟨k₁, v₁⟩ := hd
    by_cases h₁ : k₁ = k
    · subst h₁
      rw [show mset k₁ v ((k₁, v₁) :: tl) = (k₁, v) :: tl from by simp [mset]]
      rw [keys_cons, keys_cons]
      simp only [List.mem_cons]
      tauto
    · rw [show mset k v ((k₁, v₁) :: tl) = (k₁, v₁) :: mset k v tl from by simp [mset, h₁]]
      rw [keys_cons, keys_cons]
      simp only [List.mem_cons]
      rw [ih]
      tauto

theorem keys_mset_of_mget_none (k : String) (v : α) (m : List (String × α))
    (h : mget k m = none) : keys (mset k v m) = keys m ++ [k] := by
  induction m with
  | nil => rfl
  | cons hd tl ih =>
    obtain ⟨k₁, v₁⟩ := hd
    by_cases h₁ : k₁ = k
    · simp [mget, h₁] at h
    · have h₂ : mget k tl = none := by simpa [mget, h₁] using h
      rw [show mset k v ((k₁, v₁) :: tl) = (k₁, v₁) :: mset k v tl from by simp [mset, h₁]]
      rw [keys_cons, keys_cons, ih h₂, List.cons_append]

theorem nodup_keys_mset (k : String) (v : α) (m : List (String × α))
    (h : (keys m).Nodup) : (keys (mset k v m)).Nodup := by
  induction m with
  | nil => simp [mset, keys]
  | cons hd tl ih =>
    obtain ⟨k₁, v₁⟩ := hd
    rw [keys_cons, List.nodup_cons] at h
    obtain ⟨hk, hnd⟩ := h
    by_cases h₁ : k₁ = k
    · subst h₁
      rw [show mset k₁ v ((k₁, v₁) :: tl) = (k₁, v) :: tl from by simp [mset]]
      rw [keys_cons, List.nodup_cons]
      exact ⟨hk, hnd⟩
    · rw [show mset k v ((k₁, v₁) :: tl) = (k₁, v₁) :: mset k v tl from by simp [mset, h₁]]
      rw [keys_cons, List.nodup_cons]
      refine ⟨?_, ih hnd⟩
      intro hmem
      rcases (mem_keys_mset k₁ k v tl).1 hmem with h | h
      · exact h₁ h
      · exact hk h

theorem nodup_keys_mdel (k : String) (m : List (String × α))
    (h : (keys m).Nodup) : (keys (mdel k m)).Nodup :=
  List.Nodup.sublist (List.Sublist.map Prod.fst (mdel_sublist k m)) h

theorem mem_keys_mdel {x k : String} {m : List (String × α)}
    (h : x ∈ keys (mdel k m)) : x ∈ keys m :=
  (List.Sublist.map Prod.fst (mdel_sublist k m)).subset h

theorem freshId_sessions {g : String} {st : ServerState}
    (h : freshId g st = true) : mget g st.userSessions = none := by
  unfold freshId at h
  rw [Bool.and_eq_true] at h
  exact Option.isNone_iff_eq_none.1 h.1

theorem freshId_rooms {g : String} {st : ServerState} {rid : String} {r : Room}
    (h : freshId g st = true) (hr : mget rid st.rooms = some r) :
    g ∉ roomIds r := by
  unfold freshId at h
  rw [Bool.and_eq_true] at h
  have hall := h.2
  rw [List.all_eq_true] at hall
  have := hall (rid, r) (mget_mem hr)
  simpa using this

theorem distinct_after_roomDelete (st : ServerState) (roomId : String)
    (sessions₁ : List (String × Session))
    (hd₂ : ∀ rid r, mget rid st.rooms = some r → (roomIds r).Nodup)
    (hd₃ : ∀ rid₁ r₁ rid₂ r₂ u, mget rid₁ st.rooms = some r₁ →
      mget rid₂ st.rooms = some r₂ → u ∈ roomIds r₁ → u ∈ roomIds r₂ → rid₁ = rid₂)
    (hsess : (keys sessions₁).Nodup) :
    DistinctIds { rooms := mdel roomId st.rooms, userSessions := sessions₁ } := by
  refine ⟨hsess, ?_, ?_⟩
  · intro rid r hr
    rw [mget_mdel] at hr
    by_cases hk : roomId = rid
    · rw [if_pos hk] at hr; cases hr
    · rw [if_neg hk] at hr
      exact hd₂ rid r hr
  · intro rid₁ r₁ rid₂ r₂ u h₁ h₂ hu₁ hu₂
    rw [mget_mdel] at h₁ h₂
    by_cases hk₁ : roomId = rid₁
    · rw [if_pos hk₁] at h₁; cases h₁
    · rw [if_neg hk₁] at h₁
      by_cases hk₂ : roomId = rid₂
      · rw [if_pos hk₂] at h₂; cases h₂
      · rw [if_neg hk₂] at h₂
        exact hd₃ rid₁ r₁ rid₂ r₂ u h₁ h₂ hu₁ hu₂

theorem distinct_after_roomUpdate (st : ServerState) (roomId : String)
    (room R₁ : Room) (sessions₁ : List (String × Session))
    (hrm : mget roomId st.rooms = some room)
    (hd₂ : ∀ rid r, mget rid st.rooms = some r → (roomIds r).Nodup)
    (hd₃ : ∀ rid₁ r₁ rid₂ r₂ u, mget rid₁ st.rooms = some r₁ →
      mget rid₂ st.rooms = some r₂ → u ∈ roomIds r₁ → u ∈ roomIds r₂ → rid₁ = rid₂)
    (hnd : (roomIds R₁).Nodup)
    (hsub : ∀ u, u ∈ roomIds R₁ → u ∈ roomIds room)
    (hsess : (keys sessions₁).Nodup) :
    DistinctIds { rooms := mset roomId R₁ st.rooms, userSessions := sessions₁ } := by
  refine ⟨hsess, ?_, ?_⟩
  · intro rid r hr
    rw [mget_mset] at hr
    by_cases hk : roomId = rid
    · rw [if_pos hk] at hr; cases hr; exact hnd
    · rw [if_neg hk] at hr
      exact hd₂ rid r hr
  · intro rid₁ r₁ rid₂ r₂ u h₁ h₂ hu₁ hu₂
    rw [mget_mset] at h₁ h₂
    by_cases hk₁ : roomId = rid₁
    · by_cases hk₂ : roomId = rid₂
      · exact hk₁.symm.trans hk₂
      · rw [if_pos hk₁] at h₁; cases h₁
        rw [if_neg hk₂] at h₂
        exact absurd (hd₃ roomId room rid₂ r₂ u hrm h₂ (hsub u hu₁) hu₂) hk₂
    · by_cases hk₂ : roomId = rid₂
      · rw [if_neg hk₁] at h₁
        rw [if_pos hk₂] at h₂; cases h₂
        exact absurd (hd₃ roomId room rid₁ r₁ u hrm h₁ (hsub u hu₂) hu₁) hk₁
      · rw [if_neg hk₁] at h₁
        rw [if_neg hk₂] at h₂
        exact hd₃ rid₁ r₁ rid₂ r₂ u h₁ h₂ hu₁ hu₂

theorem distinct_after_roomAdd (st : ServerState) (roomId g : String)
    (R₁ : Room) (sessions₁ : List (String × Session))
    (hf : freshId g st = true)
    (hd₂ : ∀ rid r, mget rid st.rooms = some r → (roomIds r).Nodup)
    (hd₃ : ∀ rid₁ r₁ rid₂ r₂ u, mget rid₁ st.rooms = some r₁ →
      mget rid₂ st.rooms = some r₂ → u ∈ roomIds r₁ → u ∈ roomIds r₂ → rid₁ = rid₂)
    (hnd : (roomIds R₁).Nodup)
    (hsub : ∀ u, u ∈ roomIds R₁ →
      u = g ∨ ∃ room, mget roomId st.rooms = some room ∧ u ∈ roomIds room)
    (hsess : (keys sessions₁).Nodup) :
    DistinctIds { rooms := mset roomId R₁ st.rooms, userSessions := sessions₁ } := by
  refine ⟨hsess, ?_, ?_⟩
  · intro rid r hr
    rw [mget_mset] at hr
    by_cases hk : roomId = rid
    · rw [if_pos hk] at hr; cases hr; exact hnd
    · rw [if_neg hk] at hr
      exact hd₂ rid r hr
  · intro rid₁ r₁ rid₂ r₂ u h₁ h₂ hu₁ hu₂
    rw [mget_mset] at h₁ h₂
    by_cases hk₁ : roomId = rid₁
    · by_cases hk₂ : roomId = rid₂
      · exact hk₁.symm.trans hk₂
      · rw [if_pos hk₁] at h₁; cases h₁
        rw [if_neg hk₂] at h₂
        rcases hsub u hu₁ with hg | ⟨room, hrm, hmem⟩
        · subst hg
          exact absurd hu₂ (freshId_rooms hf h₂)
        · exact absurd (hd₃ roomId room rid₂ r₂ u hrm h₂ hmem hu₂) hk₂
    · by_cases hk₂ : roomId = rid₂
      · rw [if_neg hk₁] at h₁
        rw [if_pos hk₂] at h₂; cases h₂
        rcases hsub u hu₂ with hg | ⟨room, hrm, hmem⟩
        · subst hg
          exact absurd hu₁ (freshId_rooms hf h₁)
        · exact absurd (hd₃ roomId room rid₁ r₁ u hrm h₁ hmem hu₁) hk₁
      · rw [if_neg hk₁] at h₁
        rw [if_neg hk₂] at h₂
        exact hd₃ rid₁ r₁ rid₂ r₂ u h₁ h₂ hu₁ hu₂

theorem joinRoom_preserves_distinct (st : ServerState)
    (roomId username role : String) (isHost : Bool) (g : String) (now : Nat)
    (hd : DistinctIds st) (hf : freshId g st = true)
    (hhf : isHost = true → hostTaken st.rooms roomId = false) :
    DistinctIds (joinRoom st roomId username role isHost g now).1 := by
  obtain ⟨hd₁, hd₂, hd₃⟩ := hd
  cases isHost with
  | true =>
    cases hrm : mget roomId st.rooms with
    | some room =>
      have hhn : room.host = none := by
        have hht := hhf rfl
        simp only [hostTaken, hrm] at hht
        cases hE : room.host with
        | none => rfl
        | some c => rw [hE] at hht; simp at hht
      simp only [joinRoom, hrm, ite_true]
      refine distinct_after_roomAdd st roomId g _ _ hf hd₂ hd₃ ?_ ?_
        (nodup_keys_mset _ _ _ hd₁)
      · have hfr : g ∉ roomIds room := freshId_rooms hf hrm
        have h₁ : (roomIds room).Nodup := hd₂ roomId room hrm
        have hkv : roomIds room = keys room.viewers := by
          simp [roomIds, hhn]
        rw [hkv] at hfr h₁
        simp only [roomIds, List.singleton_append, List.nodup_cons]
        exact ⟨hfr, h₁⟩
      · intro u hu
        simp only [roomIds, List.singleton_append, List.mem_cons] at hu
        rcases hu with h | h
        · exact Or.inl h
        · exact Or.inr ⟨room, hrm, by simpa [roomIds, hhn] using h⟩
    | none =>
      simp only [joinRoom, hrm, ite_true]
      refine distinct_after_roomAdd st roomId g _ _ hf hd₂ hd₃ ?_ ?_
        (nodup_keys_mset _ _ _ hd₁)
      · simp [roomIds, keys]
      · intro u hu
        left
        simpa [roomIds, keys] using hu
  | false =>
    cases hrm : mget roomId st.rooms with
    | some room =>
      have hfr : g ∉ roomIds room := freshId_rooms hf hrm
      have h₁ : (roomIds room).Nodup := hd₂ roomId room hrm
      have hgk : g ∉ keys room.viewers := fun hmem =>
        hfr (List.mem_append_right _ hmem)
      have hgm : mget g room.viewers = none := (mget_eq_none_iff _ _).2 hgk
      have hkeys : keys (mset g
          { userId := g, roomId := roomId, username := username,
            role := role, isHost := false, isOpen := true } room.viewers) =
          keys room.viewers ++ [g] := keys_mset_of_mget_none _ _ _ hgm
      simp only [joinRoom, hrm, Bool.false_eq_true, ite_false]
      refine distinct_after_roomAdd st roomId g _ _ hf hd₂ hd₃ ?_ ?_
        (nodup_keys_mset _ _ _ hd₁)
      · simp only [roomIds] at h₁ ⊢
        rw [hkeys, ← List.append_assoc]
        rw [List.nodup_append]
        refine ⟨h₁, List.nodup_singleton g, ?_⟩
        intro a ha hb
        rw [List.mem_singleton] at hb
        subst hb
        exact hfr ha
      · intro u hu
        simp only [roomIds] at hu
        rw [hkeys] at hu
        rcases List.mem_append.1 hu with h | h
        · exact Or.inr ⟨room, hrm, List.mem_append_left _ h⟩
        · rcases List.mem_append.1 h with h | h
          · exact Or.inr ⟨room, hrm, List.mem_append_right _ h⟩
          · rw [List.mem_singleton] at h
            exact Or.inl h
    | none =>
      simp only [joinRoom, hrm, Bool.false_eq_true, ite_false]
      refine distinct_after_roomAdd st roomId g _ _ hf hd₂ hd₃ ?_ ?_
        (nodup_keys_mset _ _ _ hd₁)
      · simp [roomIds, mset, keys]
      · intro u hu
        left
        simpa [roomIds, mset, keys] using hu

theorem connectStep_preserves_distinct (st : ServerState) (p : ConnectParams)
    (g : String) (now : Nat) (hd : DistinctIds st) (hf : freshId g st = true) :
    DistinctIds (connectStep st p g now).1 := by
  unfold connectStep
  by_cases ht : truthy p.room = false
  · simp only [ht, ite_true]
    exact hd
  · rw [if_neg ht]
    by_cases hh : ((strOr p.role "viewer" == "host") &&
        hostTaken st.rooms (p.room.getD "")) = true
    · simp only [hh, ite_true]
      exact hd
    · rw [if_neg hh]
      apply joinRoom_preserves_distinct _ _ _ _ _ _ _ hd hf
      intro hHost
      cases hb : hostTaken st.rooms (p.room.getD "") with
      | false => rfl
      | true => exact absurd (by simp [hHost, hb]) hh

theorem closeStep_preserves_distinct (st : ServerState) (ev : CloseEv)
    (hd : DistinctIds st) : DistinctIds (closeStep st ev).1 := by
  obtain ⟨hd₁, hd₂, hd₃⟩ := hd
  cases hrm : mget ev.roomId st.rooms with
  | none =>
    simp only [closeStep, hrm]
    exact ⟨nodup_keys_mdel _ _ hd₁, hd₂, hd₃⟩
  | some room =>
    cases hih : ev.isHost with
    | true =>
      simp only [closeStep, hrm, hih, ite_true]
      by_cases he : roomEmpty { room with host := none } = true
      · simp only [he, ite_true]
        exact distinct_after_roomDelete st ev.roomId _ hd₂ hd₃
          (nodup_keys_mdel _ _ hd₁)
      · rw [if_neg he]
        refine distinct_after_roomUpdate st ev.roomId room _ _ hrm hd₂ hd₃ ?_ ?_
          (nodup_keys_mdel _ _ hd₁)
        · have h₁ : (roomIds room).Nodup := hd₂ ev.roomId room hrm
          simp only [roomIds] at h₁ ⊢
          simp only [List.nil_append]
          exact (List.nodup_append.1 h₁).2.1
        · intro u hu
          simp only [roomIds] at hu ⊢
          exact List.mem_append_right _ (by simpa using hu)
    | false =>
      simp only [closeStep, hrm, hih, Bool.false_eq_true, ite_false]
      have hsubl : (roomIds { room with viewers := mdel ev.userId room.viewers }).Sublist
          (roomIds room) := by
        simp only [roomIds]
        exact List.Sublist.append_left
          (List.Sublist.map Prod.fst (mdel_sublist _ _)) _
      by_cases he : roomEmpty { room with viewers := mdel ev.userId room.viewers } = true
      · simp only [he, ite_true]
        exact distinct_after_roomDelete st ev.roomId _ hd₂ hd₃
          (nodup_keys_mdel _ _ hd₁)
      · rw [if_neg he]
        refine distinct_after_roomUpdate st ev.roomId room _ _ hrm hd₂ hd₃ ?_ ?_
          (nodup_keys_mdel _ _ hd₁)
        · exact List.Nodup.sublist hsubl (hd₂ ev.roomId room hrm)
        · intro u hu
          exact hsubl.subset hu

def cX1 : Conn :=
  { userId := "x", roomId := "r1", username := "X", role := "viewer",
    isHost := false, isOpen := true }

def cX2 : Conn :=
  { userId := "x", roomId := "r2", username := "Y", role := "viewer",
    isHost := false, isOpen := true }

def stCol : ServerState :=
  (connectStep
    (connectStep stEmpty
      { room := some "r1", username := some "X", role := some "viewer" } "x" 0).1
    { room := some "r2", username := some "Y", role := some "viewer" } "x" 1).1

/-- C8 counterexample: the id generator has no uniqueness check, and the
registration path performs none either — when it returns the same id x
for two connections in different rooms, both stay registered as room
members under the same id while the second Session Index write silently
overwrites the first, so two simultaneously-active connections share an
id. -/
theorem id_collision_cex :
    mget "r1" stCol.rooms = some { host := none, viewers := [("x", cX1)] }
    ∧ mget "r2" stCol.rooms = some { host := none, viewers := [("x", cX2)] }
    ∧ cX1 ≠ cX2
    ∧ (mget "x" stCol.userSessions).map (fun s => s.roomId) = some "r2" := by
  refine ⟨by decide, by decide, by decide, by decide⟩

/-- C8 amended: connection ids are exactly as unique as the generator
makes them: along any trace in which every generated id is fresh (not
currently a session key or a room member id), no two Session Index
entries share a key, no two members of a room share an id, and no id
belongs to two rooms; a colliding generator output violates this, as the
counterexample shows. -/
theorem fresh_ids_distinct_amended : ∀ st, ReachableFresh st → DistinctIds st := by
  intro st h
  induction h with
  | init =>
    refine ⟨List.nodup_nil, ?_, ?_⟩
    · intro rid r hr
      simp [mget] at hr
    · intro rid₁ r₁ rid₂ r₂ u h₁ h₂ _ _
      simp [mget] at h₁
  | connect p g now hf _ ih => exact connectStep_preserves_distinct _ _ _ _ ih hf
  | close ev _ ih => exact closeStep_preserves_distinct _ _ ih

theorem fresh_ids_distinct_amended_witness : DistinctIds stA :=
  fresh_ids_distinct_amended stA
    (ReachableFresh.connect pHostA "a" 0 (by decide) ReachableFresh.init)

/-! ### Claim C9: the idle reaper -/

def cV : Conn :=
  { userId := "v", roomId := "r", username := "V", role := "viewer",
    isHost := false, isOpen := true }

def sessV : Session :=
  { ws := cV, roomId := "r", username := "V", role := "viewer",
    isHost := false, connectedAt := 0 }

def stStale : ServerState :=
  { rooms := [("r", { host := none, viewers := [("v", cV)] })],
    userSessions := [("v", sessV)] }

/-- C9 counterexample: the sweep reaps room r (its only member hit the
30 minute staleness bound) but emits no close at all — the member
transport handle stays open and even its Session Index entry survives,
so the lingering handles of a reaped room are not closed. -/
theorem reaper_no_close_cex :
    mget "r" (cleanupStep stStale (30 * 60 * 1000)).1.rooms = none
    ∧ (cleanupStep stStale (30 * 60 * 1000)).2 = []
    ∧ mget "v" (cleanupStep stStale (30 * 60 * 1000)).1.userSessions
        = mget "v" stStale.userSessions
    ∧ cV.isOpen = true := by
  refine ⟨by decide, by decide, by decide, by decide⟩

/-- C9 amended: each sweep removes exactly the rooms with no active
member, where active means: socket open, session still present, and
connectedAt within the 30 minute window (connectedAt is the only
timestamp the server keeps, so it stands in for last activity); a room
with such a member is never removed; but the sweep closes no transport
handle and leaves the Session Index untouched. -/
theorem reaper_removal_amended
    (st : ServerState) (now : Nat) (hnd : (keys st.rooms).Nodup) :
    (∀ rid, mget rid (cleanupStep st now).1.rooms =
      (mget rid st.rooms).bind
        (fun r => if hasActiveConnections r st.userSessions now then some r else none))
    ∧ (∀ rid r, mget rid st.rooms = some r →
        hasActiveConnections r st.userSessions now = true →
        mget rid (cleanupStep st now).1.rooms = some r)
    ∧ (cleanupStep st now).2 = []
    ∧ (cleanupStep st now).1.userSessions = st.userSessions := by
  have hmain : ∀ rid, mget rid (cleanupStep st now).1.rooms =
      (mget rid st.rooms).bind
        (fun r => if hasActiveConnections r st.userSessions now then some r else none) := by
    intro rid
    show mget rid (st.rooms.filter
      (fun p => hasActiveConnections p.2 st.userSessions now)) = _
    exact mget_filter (fun r => hasActiveConnections r st.userSessions now) rid st.rooms hnd
  refine ⟨hmain, ?_, rfl, rfl⟩
  intro rid r hr hact
  simp [hmain rid, hr, hact]

theorem reaper_removal_amended_witness :
    (∀ rid, mget rid (cleanupStep stStale 0).1.rooms =
      (mget rid stStale.rooms).bind
        (fun r => if hasActiveConnections r stStale.userSessions 0 then some r else none))
    ∧ (∀ rid r, mget rid stStale.rooms = some r →
        hasActiveConnections r stStale.userSessions 0 = true →
        mget rid (cleanupStep stStale 0).1.rooms = some r)
    ∧ (cleanupStep stStale 0).2 = []
    ∧ (cleanupStep stStale 0).1.userSessions = stStale.userSessions :=
  reaper_removal_amended stStale 0 (by decide)

/-! ### Claim C10: role parsing and placement -/

/-- C10: for an admitted connection, the host slot is taken exactly when
the role query parameter is the string host (absent, empty, viewer or
any other value defaults or falls through to the viewer Map); the
effective role string — the raw parameter, or the viewer default — is
echoed unchanged in the welcome message and stored in the session
record. -/
theorem role_parsing_placement
    (st : ServerState) (p : ConnectParams) (g : String) (now : Nat) (rid : String)
    (hroom : p.room = some rid) (hrid : rid ≠ "")
    (hadm : strOr p.role "viewer" = "host" → hostTaken st.rooms rid = false) :
    ((strOr p.role "viewer" = "host") ↔ p.role = some "host")
    ∧ (strOr p.role "viewer" = "host" →
        ∃ r₁ c, mget rid (connectStep st p g now).1.rooms = some r₁ ∧
          r₁.host = some c ∧ c.userId = g ∧ c.role = "host")
    ∧ (strOr p.role "viewer" ≠ "host" →
        ∃ r₁ c, mget rid (connectStep st p g now).1.rooms = some r₁ ∧
          mget g r₁.viewers = some c ∧ c.role = strOr p.role "viewer" ∧
          r₁.host = (match mget rid st.rooms with
                     | some r => r.host
                     | none => none))
    ∧ (Effect.send .self (.welcome g (strOr p.username "Anonymous") rid
        (strOr p.role "viewer") (strOr p.role "viewer" == "host")
        ("Connected as " ++ strOr p.role "viewer")) ∈ (connectStep st p g now).2)
    ∧ (∃ s, mget g (connectStep st p g now).1.userSessions = some s ∧
        s.role = strOr p.role "viewer" ∧ s.isHost = (strOr p.role "viewer" == "host")) := by
  have htru : truthy (some rid) = true := by simp [truthy, hrid]
  have hiff : (strOr p.role "viewer" = "host") ↔ p.role = some "host" := by
    cases hpr : p.role with
    | none => simp [strOr]
    | some sr =>
      by_cases hs : sr = "" <;> simp [strOr, hs]
  by_cases hpr : strOr p.role "viewer" = "host"
  · have hnt := hadm hpr
    have hstep : connectStep st p g now =
        joinRoom st rid (strOr p.username "Anonymous") "host" true g now := by
      simp [connectStep, htru, hroom, hpr, hnt]
    refine ⟨hiff, ?_, ?_, ?_, ?_⟩
    · intro _
      rw [hstep]
      simp only [joinRoom, ite_true]
      rw [mget_mset, if_pos rfl]
      exact ⟨_, _, rfl, rfl, rfl, rfl⟩
    · intro h
      exact absurd hpr h
    · rw [hstep, hpr]
      simp [joinRoom]
    · rw [hstep]
      simp only [joinRoom, ite_true]
      rw [mget_mset, if_pos rfl]
      exact ⟨_, rfl, by simp [hpr], by simp [hpr]⟩
  · have hB : (strOr p.role "viewer" == "host") = false := by
      simp [hpr]
    have hstep : connectStep st p g now =
        joinRoom st rid (strOr p.username "Anonymous") (strOr p.role "viewer")
          false g now := by
      simp [connectStep, htru, hroom, hB]
    refine ⟨hiff, ?_, ?_, ?_, ?_⟩
    · intro h
      exact absurd h hpr
    · intro _
      rw [hstep]
      simp only [joinRoom, Bool.false_eq_true, ite_false]
      rw [mget_mset, if_pos rfl]
      refine ⟨_,
        { userId := g, roomId := rid, username := strOr p.username "Anonymous",
          role := strOr p.role "viewer", isHost := false, isOpen := true },
        rfl, ?_, rfl, ?_⟩
      · rw [mget_mset, if_pos rfl]
      · cases hrm : mget rid st.rooms <;> simp [hrm]
    · rw [hstep, hB]
      simp [joinRoom]
    · rw [hstep]
      simp only [joinRoom, Bool.false_eq_true, ite_false]
      rw [mget_mset, if_pos rfl]
      exact ⟨_, rfl, by simp [hB], by simp [hB]⟩

theorem role_parsing_placement_witness :
    ((strOr pHostA.role "viewer" = "host") ↔ pHostA.role = some "host")
    ∧ (strOr pHostA.role "viewer" = "host" →
        ∃ r₁ c, mget "movie1" (connectStep stEmpty pHostA "a" 0).1.rooms = some r₁ ∧
          r₁.host = some c ∧ c.userId = "a" ∧ c.role = "host")
    ∧ (strOr pHostA.role "viewer" ≠ "host" →
        ∃ r₁ c, mget "movie1" (connectStep stEmpty pHostA "a" 0).1.rooms = some r₁ ∧
          mget "a" r₁.viewers = some c ∧ c.role = strOr pHostA.role "viewer" ∧
          r₁.host = (match mget "movie1" stEmpty.rooms with
                     | some r => r.host
                     | none => none))
    ∧ (Effect.send .self (.welcome "a" (strOr pHostA.username "Anonymous") "movie1"
        (strOr pHostA.role "viewer") (strOr pHostA.role "viewer" == "host")
        ("Connected as " ++ strOr pHostA.role "viewer"))
          ∈ (connectStep stEmpty pHostA "a" 0).2)
    ∧ (∃ s, mget "a" (connectStep stEmpty pHostA "a" 0).1.userSessions = some s ∧
        s.role = strOr pHostA.role "viewer" ∧
        s.isHost = (strOr pHostA.role "viewer" == "host")) :=
  role_parsing_placement stEmpty pHostA "a" 0 "movie1" rfl (by decide) (fun _ => by decide)
